import Mathlib

/-!
Formal model of the quote-manager web application (sync variant).

The application keeps an ordered list of quotes (text + category), syncs it
against a simulated server, detects text-based conflicts, merges new server
quotes, and lets the user resolve conflicts one at a time or in bulk.  The
definitions below are a shallow embedding of the JavaScript source: the
module-level mutable globals become fields of `AppState`, each function
becomes a state transformer, and the network / DOM collaborators become
explicit inputs (fetch outcome, collaborator failure flag) and outputs
(status line, notification list).
-/

set_option maxRecDepth 2048

namespace QuoteApp

/-- A quote record: `text` and `category` strings, plus the optional `id`
and `source` fields that server-fetched or locally added quotes carry. -/
structure Quote where
  text : String
  category : String
  id : Option Nat := none
  source : Option String := none
deriving DecidableEq

/-- A pending conflict as built by `detectConflicts`: the matching local
quote, the server quote, and the constant kind tag `category_mismatch`.
The JS field names `local` and `server` are Lean keywords/identifiers, so
they are rendered `localQuote` and `serverQuote`. -/
structure Conflict where
  localQuote : Quote
  serverQuote : Quote
  kind : String := "category_mismatch"
deriving DecidableEq

/-- Strip leading and trailing whitespace from a character list. -/
def trimChars (l : List Char) : List Char :=
  ((l.dropWhile Char.isWhitespace).reverse.dropWhile Char.isWhitespace).reverse

/-- Text normalization used for identity matching, modelling JS
`t.toLowerCase().trim()`: lower-case every character, then strip leading
and trailing whitespace.  Implemented over the character list so that it
evaluates inside the kernel. -/
def normText (t : String) : String :=
  String.mk (trimChars (t.data.map Char.toLower))

/-- One iteration of the `serverData.forEach` loop in `detectConflicts`:
look up the first local quote with equal normalized text; if found and the
categories differ, push a conflict; if found with equal category, do
nothing; if not found, push the server quote as new. -/
def detectStep (qs : List Quote) (acc : List Conflict × List Quote)
    (serverQuote : Quote) : List Conflict × List Quote :=
  match qs.find? (fun q => normText q.text = normText serverQuote.text) with
  | some localMatch =>
    if localMatch.category ≠ serverQuote.category then
      (acc.1 ++ [{ localQuote := localMatch, serverQuote := serverQuote }], acc.2)
    else acc
  | none => (acc.1, acc.2 ++ [serverQuote])

/-- JS `detectConflicts(serverData)`: folds the forEach loop over the
remote snapshot, starting from empty `conflicts` and `newServerQuotes`
accumulators.  It reads the local store `qs` and returns only the
classification; the store is not part of the result. -/
def detectConflicts (qs serverData : List Quote) : List Conflict × List Quote :=
  serverData.foldl (detectStep qs) ([], [])

/-- Per-item classifier written from the spec's wording of the conflict
rule: a remote quote maps to a conflict exactly when a normalized-text
local match exists and the categories differ. -/
def conflictOf (qs : List Quote) (v : Quote) : Option Conflict :=
  match qs.find? (fun q => normText q.text = normText v.text) with
  | some l =>
    if l.category ≠ v.category then
      some { localQuote := l, serverQuote := v }
    else none
  | none => none

/-- Per-item classifier written from the spec's wording of the "new"
rule: a remote quote is new exactly when no local quote has equal
normalized text. -/
def isNewRemote (qs : List Quote) (v : Quote) : Bool :=
  (qs.find? (fun q => normText q.text = normText v.text)).isNone

theorem detect_go (qs : List Quote) :
    ∀ (sd : List Quote) (acc : List Conflict × List Quote),
      sd.foldl (detectStep qs) acc =
        (acc.1 ++ sd.filterMap (conflictOf qs),
         acc.2 ++ sd.filter (fun v => isNewRemote qs v)) := by
  intro sd
  induction sd with
  | nil => intro acc; simp
  | cons v rest ih =>
    intro acc
    rw [List.foldl_cons, ih]
    rcases h : qs.find? (fun q => normText q.text = normText v.text) with _ | l
    · simp [detectStep, conflictOf, isNewRemote, h, List.filterMap_cons,
        List.filter_cons]
    · by_cases hc : l.category = v.category
      · simp [detectStep, conflictOf, isNewRemote, h, hc, List.filterMap_cons,
          List.filter_cons]
      · simp [detectStep, conflictOf, isNewRemote, h, hc, List.filterMap_cons,
          List.filter_cons]

/-- C1: `detectConflicts` classifies every remote quote into exactly one of
three classes by normalized-text comparison with the local store: its
conflict list is precisely the remote quotes whose local match has a
differing category (paired with that local match), its new list is
precisely the remote quotes with no local match, and a remote quote whose
local match has an equal category lands in neither list (ignored, not
re-added).  The store is not mutated: `detectConflicts` returns only the
classification, a pure function of the store. -/
theorem detectConflicts_classification (qs sd : List Quote) :
    detectConflicts qs sd =
      (sd.filterMap (conflictOf qs), sd.filter (fun v => isNewRemote qs v)) ∧
    (∀ v l, qs.find? (fun q => normText q.text = normText v.text) = some l →
      l.category ≠ v.category →
      conflictOf qs v = some { localQuote := l, serverQuote := v }) ∧
    (∀ v l, qs.find? (fun q => normText q.text = normText v.text) = some l →
      l.category = v.category →
      conflictOf qs v = none ∧ isNewRemote qs v = false) ∧
    (∀ v, qs.find? (fun q => normText q.text = normText v.text) = none →
      conflictOf qs v = none ∧ isNewRemote qs v = true) := by
  refine ⟨?_, ?_, ?_, ?_⟩
  · rw [detectConflicts]
    simpa using detect_go qs sd ([], [])
  · intro v l h hne
    simp [conflictOf, h, hne]
  · intro v l h heq
    simp [conflictOf, isNewRemote, h, heq]
  · intro v h
    simp [conflictOf, isNewRemote, h]

/-- A one-quote local store used to exercise the classifier. -/
def qsW : List Quote := [{ text := "Hello World", category := "Life" }]

/-- A remote quote with no local normalized-text match. -/
def vNew : Quote := { text := "Other", category := "X" }

/-- A remote quote whose normalized text matches the local store but whose
category differs. -/
def vConf : Quote := { text := "  hello world ", category := "Server Wisdom" }

theorem detectConflicts_classification_witness :
    conflictOf qsW vConf =
      some { localQuote := { text := "Hello World", category := "Life" },
             serverQuote := vConf } ∧
    (conflictOf qsW vNew = none ∧ isNewRemote qsW vNew = true) :=
  ⟨(detectConflicts_classification qsW [vConf]).2.1 vConf
      { text := "Hello World", category := "Life" } (by decide) (by decide),
   (detectConflicts_classification qsW [vNew]).2.2.2 vNew (by decide)⟩

/-- A JSONPlaceholder post as the simulated server returns it. -/
structure Post where
  id : Nat
  userId : Nat
  title : String
deriving DecidableEq

/-- Outcome of the transport underlying `fetchQuotesFromServer`: either a
successful response whose JSON body is a list of posts, or a failure — a
non-success HTTP status or a thrown error — carrying the error message. -/
inductive FetchOutcome where
  | ok (posts : List Post)
  | fail (msg : String)
deriving DecidableEq

/-- The module-level mutable globals of the script: the quote store, the
selected filter, the sync guard, the last-sync timestamp, the cached
server snapshot, and the pending-conflict queue. -/
structure AppState where
  quotes : List Quote
  selectedCategory : String
  isSyncing : Bool
  lastSyncTime : Option Nat
  serverQuotes : List Quote
  pendingConflicts : List Conflict
deriving DecidableEq

/-- Observable side effects of one `syncQuotes` call: whether a network
fetch was issued, whether the push step ran, the last sync-status line
shown (message and severity class), and the notifications surfaced. -/
structure SyncLog where
  fetchIssued : Bool
  pushAttempted : Bool
  finalStatus : String
  finalStatusKind : String
  notes : List String
deriving DecidableEq

/-- The post → quote mapping in `fetchQuotesFromServer`: text from the
title, category from the parity of `userId`, the post id, and a server
source tag. -/
def postToQuote (p : Post) : Quote :=
  { text := p.title,
    category := if p.userId % 2 = 0 then "Server Wisdom" else "Server Insight",
    id := some p.id,
    source := some ("server") }

/-- The list of quotes a fetch outcome yields after the post → quote
mapping; the catch block maps a failed transport to the empty list. -/
def remoteOf : FetchOutcome → List Quote
  | .ok posts => posts.map postToQuote
  | .fail _ => []

/-- The notification `fetchQuotesFromServer` surfaces on failure. -/
def fetchFailNotes : FetchOutcome → List String
  | .ok _ => []
  | .fail msg => ["Failed to fetch from server: " ++ msg]

/-- JS `fetchQuotesFromServer()`: on success it stores the mapped quotes
in the `serverQuotes` global and returns them; on failure (non-ok status
or throw) its catch block reports the error and returns `[]`, leaving
`serverQuotes` unchanged. -/
def fetchQuotesFromServer (s : AppState) : FetchOutcome → AppState × List Quote
  | .ok posts =>
    ({ s with serverQuotes := posts.map postToQuote }, posts.map postToQuote)
  | .fail _ => (s, [])

/-- JS `syncQuotes()`, one whole async cycle run atomically.  The inputs
model the environment: `fr` is the transport outcome of the fetch,
`modalThrows` says whether the conflict-modal collaborator throws when
invoked (`showConflictModal` dereferences its DOM nodes without a null
guard; it is the throw point inside the try block), and `now` is the
completion timestamp.  The try/catch/finally structure is flattened:
every branch that entered the body ends with `isSyncing := false`, which
is the finally clause, on the success, early-return and exception paths
alike. -/
def syncQuotes (s : AppState) (fr : FetchOutcome) (modalThrows : Bool)
    (now : Nat) : AppState × SyncLog :=
  if s.isSyncing then
    (s, { fetchIssued := false, pushAttempted := false, finalStatus := "",
          finalStatusKind := "", notes := [] })
  else
    let s0 : AppState := { s with isSyncing := true }
    let fres := fetchQuotesFromServer s0 fr
    if fres.2.length = 0 then
      ({ fres.1 with isSyncing := false },
       { fetchIssued := true, pushAttempted := false,
         finalStatus := "No server data available",
         finalStatusKind := "error", notes := fetchFailNotes fr })
    else
      let dc := detectConflicts fres.1.quotes fres.2
      let s2 := if 0 < dc.1.length then
          { fres.1 with pendingConflicts := dc.1 }
        else fres.1
      if 0 < dc.1.length ∧ modalThrows = true then
        ({ s2 with isSyncing := false },
         { fetchIssued := true, pushAttempted := false,
           finalStatus := "Sync failed", finalStatusKind := "error",
           notes := ["Sync failed: the conflict modal could not be shown"] })
      else
        let s3 := if 0 < dc.2.length then
            { s2 with quotes := s2.quotes ++ dc.2 }
          else s2
        ({ s3 with lastSyncTime := some now, isSyncing := false },
         { fetchIssued := true, pushAttempted := true,
           finalStatus := "Sync successful", finalStatusKind := "success",
           notes :=
             if dc.1.length = 0 ∧ 0 < dc.2.length then
               ["Sync complete! Added new quotes from server."]
             else if dc.1.length = 0 ∧ dc.2.length = 0 then
               ["Sync complete! No changes detected."]
             else [] })

theorem syncQuotes_quotes_cases (s : AppState) (fr : FetchOutcome)
    (mt : Bool) (now : Nat) :
    (syncQuotes s fr mt now).1.quotes = s.quotes ∨
    (syncQuotes s fr mt now).1.quotes =
      s.quotes ++ (detectConflicts s.quotes (remoteOf fr)).2 := by
  by_cases hs : s.isSyncing = true
  · left; simp [syncQuotes, hs]
  · cases fr with
    | fail msg => left; simp [syncQuotes, hs, fetchQuotesFromServer]
    | ok posts =>
      by_cases hp : posts = []
      · left; simp [syncQuotes, hs, fetchQuotesFromServer, hp]
      · by_cases hn :
          0 < (detectConflicts s.quotes (posts.map postToQuote)).2.length
        · by_cases hcl :
            0 < (detectConflicts s.quotes (posts.map postToQuote)).1.length
          · by_cases hmt : mt = true
            · left
              simp [syncQuotes, hs, fetchQuotesFromServer, hp, hcl, hmt]
            · right
              simp [syncQuotes, hs, fetchQuotesFromServer, hp, hcl, hmt, hn,
                remoteOf]
          · right
            simp [syncQuotes, hs, fetchQuotesFromServer, hp, hcl, hn,
              remoteOf]
        · have hz :
              (detectConflicts s.quotes (posts.map postToQuote)).2 = [] :=
            List.length_eq_zero.mp (Nat.eq_zero_of_not_pos hn)
          by_cases hcl :
            0 < (detectConflicts s.quotes (posts.map postToQuote)).1.length
          · by_cases hmt : mt = true
            · left
              simp [syncQuotes, hs, fetchQuotesFromServer, hp, hcl, hmt]
            · left
              simp [syncQuotes, hs, fetchQuotesFromServer, hp, hcl, hmt, hn,
                hz]
          · left
            simp [syncQuotes, hs, fetchQuotesFromServer, hp, hcl, hn, hz]

theorem syncQuotes_preserves_existing (s : AppState) (fr : FetchOutcome)
    (mt : Bool) (now : Nat) :
    ∀ i, i < s.quotes.length →
      (syncQuotes s fr mt now).1.quotes[i]? = s.quotes[i]? := by
  intro i hi
  rcases syncQuotes_quotes_cases s fr mt now with h | h
  · rw [h]
  · rw [h, List.getElem?_append_left hi]

theorem syncQuotes_isSyncing (s : AppState) (fr : FetchOutcome) (mt : Bool)
    (now : Nat) : (syncQuotes s fr mt now).1.isSyncing = s.isSyncing := by
  by_cases hs : s.isSyncing = true
  · simp [syncQuotes, hs]
  · have hs' : s.isSyncing = false := by simpa using hs
    cases fr with
    | fail msg => simp [syncQuotes, hs', fetchQuotesFromServer]
    | ok posts =>
      by_cases hp : posts = []
      · simp [syncQuotes, hs', fetchQuotesFromServer, hp]
      · by_cases hcl :
          0 < (detectConflicts s.quotes (posts.map postToQuote)).1.length
        · by_cases hmt : mt = true
          · simp [syncQuotes, hs', fetchQuotesFromServer, hp, hcl, hmt]
          · by_cases hn :
              0 < (detectConflicts s.quotes (posts.map postToQuote)).2.length
            · simp [syncQuotes, hs', fetchQuotesFromServer, hp, hcl, hmt, hn]
            · simp [syncQuotes, hs', fetchQuotesFromServer, hp, hcl, hmt, hn]
        · by_cases hn :
            0 < (detectConflicts s.quotes (posts.map postToQuote)).2.length
          · simp [syncQuotes, hs', fetchQuotesFromServer, hp, hcl, hn]
          · simp [syncQuotes, hs', fetchQuotesFromServer, hp, hcl, hn]

/-- C4: at most one sync runs at a time.  If the guard is set, a call
returns the state exactly unchanged (store and pending queue included)
with no fetch issued; and the flag a cycle leaves behind always equals
the flag it found, so a cycle that actually entered the body — whether it
finished successfully, aborted on an empty fetch, or ended by the
conflict-modal exception (`mt = true`) — always clears the guard, and a
later call is never permanently rejected. -/
theorem syncQuotes_guard (s : AppState) (fr : FetchOutcome) (mt : Bool)
    (now : Nat) :
    (s.isSyncing = true →
      syncQuotes s fr mt now =
        (s, { fetchIssued := false, pushAttempted := false,
              finalStatus := "", finalStatusKind := "", notes := [] })) ∧
    (syncQuotes s fr mt now).1.isSyncing = s.isSyncing := by
  constructor
  · intro hs; simp [syncQuotes, hs]
  · exact syncQuotes_isSyncing s fr mt now

/-- A state whose sync guard is set. -/
def sBusy : AppState :=
  { quotes := qsW, selectedCategory := "all", isSyncing := true,
    lastSyncTime := none, serverQuotes := [], pendingConflicts := [] }

/-- The same state with the guard clear. -/
def sIdle : AppState := { sBusy with isSyncing := false }

/-- A post that conflicts with `qsW` (same normalized text, category
`Server Wisdom` from the even `userId`). -/
def pConf : Post := { id := 2, userId := 2, title := "  hello world " }

/-- A post whose text matches nothing local. -/
def pNew : Post := { id := 1, userId := 1, title := "Fresh server wisdom" }

theorem syncQuotes_guard_witness :
    syncQuotes sBusy (FetchOutcome.ok [pConf]) true 3 =
      (sBusy, { fetchIssued := false, pushAttempted := false,
                finalStatus := "", finalStatusKind := "", notes := [] }) ∧
    (syncQuotes sIdle (FetchOutcome.ok [pConf]) true 3).1.isSyncing = false :=
  ⟨(syncQuotes_guard sBusy (FetchOutcome.ok [pConf]) true 3).1 rfl,
   (syncQuotes_guard sIdle (FetchOutcome.ok [pConf]) true 3).2.trans rfl⟩

/-- C2: a successfully completing sync cycle appends exactly the remote
items classified "new", in classification order, at the end of the store;
hence the store length afterwards is the length before plus the new
count, and every pre-existing quote — those involved in conflicts
included — is untouched by the cycle itself. -/
theorem syncQuotes_success_growth (s : AppState) (fr : FetchOutcome)
    (mt : Bool) (now : Nat) (h1 : s.isSyncing = false)
    (h2 : (syncQuotes s fr mt now).2.finalStatusKind = "success") :
    (syncQuotes s fr mt now).1.quotes =
      s.quotes ++ (detectConflicts s.quotes (remoteOf fr)).2 ∧
    (syncQuotes s fr mt now).1.quotes.length =
      s.quotes.length + (detectConflicts s.quotes (remoteOf fr)).2.length ∧
    (∀ i, i < s.quotes.length →
      (syncQuotes s fr mt now).1.quotes[i]? = s.quotes[i]?) := by
  have hmain : (syncQuotes s fr mt now).1.quotes =
      s.quotes ++ (detectConflicts s.quotes (remoteOf fr)).2 := by
    cases fr with
    | fail msg =>
      exfalso; simp [syncQuotes, h1, fetchQuotesFromServer] at h2
    | ok posts =>
      by_cases hp : posts = []
      · exfalso; simp [syncQuotes, h1, fetchQuotesFromServer, hp] at h2
      · by_cases hcl :
          0 < (detectConflicts s.quotes (posts.map postToQuote)).1.length
        · by_cases hmt : mt = true
          · exfalso
            simp [syncQuotes, h1, fetchQuotesFromServer, hp, hcl, hmt] at h2
          · by_cases hn :
              0 < (detectConflicts s.quotes (posts.map postToQuote)).2.length
            · simp [syncQuotes, h1, fetchQuotesFromServer, hp, hcl, hmt, hn,
                remoteOf]
            · have hz :
                  (detectConflicts s.quotes (posts.map postToQuote)).2 = [] :=
                List.length_eq_zero.mp (Nat.eq_zero_of_not_pos hn)
              simp [syncQuotes, h1, fetchQuotesFromServer, hp, hcl, hmt, hn,
                remoteOf, hz]
        · by_cases hn :
            0 < (detectConflicts s.quotes (posts.map postToQuote)).2.length
          · simp [syncQuotes, h1, fetchQuotesFromServer, hp, hcl, hn,
              remoteOf]
          · have hz :
                (detectConflicts s.quotes (posts.map postToQuote)).2 = [] :=
              List.length_eq_zero.mp (Nat.eq_zero_of_not_pos hn)
            simp [syncQuotes, h1, fetchQuotesFromServer, hp, hcl, hn,
              remoteOf, hz]
  refine ⟨hmain, ?_, ?_⟩
  · rw [hmain, List.length_append]
  · intro i hi
    rw [hmain, List.getElem?_append_left hi]

theorem syncQuotes_success_growth_witness :
    (syncQuotes sIdle (FetchOutcome.ok [pNew]) false 7).1.quotes =
      sIdle.quotes ++
        (detectConflicts sIdle.quotes (remoteOf (FetchOutcome.ok [pNew]))).2 :=
  (syncQuotes_success_growth sIdle (FetchOutcome.ok [pNew]) false 7 rfl
    (by decide)).1

/-- C5: when the remote fetch fails (non-success status or throw), the
whole cycle aborts: store, pending-conflict queue and last-sync timestamp
are unchanged, nothing is merged, the push step never runs, the final
status is an error, and a failure notification is surfaced. -/
theorem syncQuotes_fetch_failure (s : AppState) (msg : String) (mt : Bool)
    (now : Nat) (h1 : s.isSyncing = false) :
    (syncQuotes s (FetchOutcome.fail msg) mt now).1.quotes = s.quotes ∧
    (syncQuotes s (FetchOutcome.fail msg) mt now).1.pendingConflicts =
      s.pendingConflicts ∧
    (syncQuotes s (FetchOutcome.fail msg) mt now).1.lastSyncTime =
      s.lastSyncTime ∧
    (syncQuotes s (FetchOutcome.fail msg) mt now).2.pushAttempted = false ∧
    (syncQuotes s (FetchOutcome.fail msg) mt now).2.finalStatusKind =
      "error" ∧
    (syncQuotes s (FetchOutcome.fail msg) mt now).2.notes =
      ["Failed to fetch from server: " ++ msg] := by
  simp [syncQuotes, h1, fetchQuotesFromServer, fetchFailNotes]

theorem syncQuotes_fetch_failure_witness :
    (syncQuotes sIdle (FetchOutcome.fail ("network down")) false 3).1.quotes =
      sIdle.quotes ∧
    (syncQuotes sIdle (FetchOutcome.fail ("network down")) false
        3).1.pendingConflicts = sIdle.pendingConflicts ∧
    (syncQuotes sIdle (FetchOutcome.fail ("network down")) false
        3).1.lastSyncTime = sIdle.lastSyncTime ∧
    (syncQuotes sIdle (FetchOutcome.fail ("network down")) false
        3).2.pushAttempted = false ∧
    (syncQuotes sIdle (FetchOutcome.fail ("network down")) false
        3).2.finalStatusKind = "error" ∧
    (syncQuotes sIdle (FetchOutcome.fail ("network down")) false 3).2.notes =
      ["Failed to fetch from server: " ++ "network down"] :=
  syncQuotes_fetch_failure sIdle ("network down") false 3 rfl

/-- C10: a cycle whose fetch yields an empty remote snapshot — zero
records on success, or a transport failure mapped to the empty list — is
treated exactly like a failed sync: early return with store, queue and
timestamp unchanged, no push, an error status; the two runs agree on all
of the sync-level observables, including the final status line. -/
theorem syncQuotes_empty_eq_failure (s : AppState) (msg : String) (mt : Bool)
    (now : Nat) (h1 : s.isSyncing = false) :
    (syncQuotes s (FetchOutcome.ok []) mt now).1.quotes = s.quotes ∧
    (syncQuotes s (FetchOutcome.ok []) mt now).1.pendingConflicts =
      s.pendingConflicts ∧
    (syncQuotes s (FetchOutcome.ok []) mt now).1.lastSyncTime =
      s.lastSyncTime ∧
    (syncQuotes s (FetchOutcome.ok []) mt now).2.pushAttempted = false ∧
    (syncQuotes s (FetchOutcome.ok []) mt now).2.finalStatusKind = "error" ∧
    (syncQuotes s (FetchOutcome.ok []) mt now).2.finalStatus =
      (syncQuotes s (FetchOutcome.fail msg) mt now).2.finalStatus ∧
    (syncQuotes s (FetchOutcome.ok []) mt now).1.quotes =
      (syncQuotes s (FetchOutcome.fail msg) mt now).1.quotes ∧
    (syncQuotes s (FetchOutcome.ok []) mt now).1.pendingConflicts =
      (syncQuotes s (FetchOutcome.fail msg) mt now).1.pendingConflicts ∧
    (syncQuotes s (FetchOutcome.ok []) mt now).1.lastSyncTime =
      (syncQuotes s (FetchOutcome.fail msg) mt now).1.lastSyncTime ∧
    (syncQuotes s (FetchOutcome.ok []) mt now).2.pushAttempted =
      (syncQuotes s (FetchOutcome.fail msg) mt now).2.pushAttempted := by
  simp [syncQuotes, h1, fetchQuotesFromServer]

theorem syncQuotes_empty_eq_failure_witness :
    (syncQuotes sIdle (FetchOutcome.ok []) false 3).1.quotes =
      sIdle.quotes ∧
    (syncQuotes sIdle (FetchOutcome.ok []) false 3).1.pendingConflicts =
      sIdle.pendingConflicts ∧
    (syncQuotes sIdle (FetchOutcome.ok []) false 3).1.lastSyncTime =
      sIdle.lastSyncTime ∧
    (syncQuotes sIdle (FetchOutcome.ok []) false 3).2.pushAttempted =
      false ∧
    (syncQuotes sIdle (FetchOutcome.ok []) false 3).2.finalStatusKind =
      "error" ∧
    (syncQuotes sIdle (FetchOutcome.ok []) false 3).2.finalStatus =
      (syncQuotes sIdle (FetchOutcome.fail ("boom")) false 3).2.finalStatus ∧
    (syncQuotes sIdle (FetchOutcome.ok []) false 3).1.quotes =
      (syncQuotes sIdle (FetchOutcome.fail ("boom")) false 3).1.quotes ∧
    (syncQuotes sIdle (FetchOutcome.ok []) false 3).1.pendingConflicts =
      (syncQuotes sIdle (FetchOutcome.fail ("boom")) false
        3).1.pendingConflicts ∧
    (syncQuotes sIdle (FetchOutcome.ok []) false 3).1.lastSyncTime =
      (syncQuotes sIdle (FetchOutcome.fail ("boom")) false 3).1.lastSyncTime ∧
    (syncQuotes sIdle (FetchOutcome.ok []) false 3).2.pushAttempted =
      (syncQuotes sIdle (FetchOutcome.fail ("boom")) false
        3).2.pushAttempted :=
  syncQuotes_empty_eq_failure sIdle ("boom") false 3 rfl

/-- Interference freedom between an earlier and a later pending conflict,
as the bulk server-resolution loop relies on it: their local texts are
distinct, and the earlier conflict's server text does not collide with
the later conflict's local text. -/
def RConf (a b : Conflict) : Prop :=
  a.localQuote.text ≠ b.localQuote.text ∧
    a.serverQuote.text ≠ b.localQuote.text

/-- JS `Array.prototype.findIndex`: the index of the first element
satisfying the predicate, if any. -/
def jsFindIndex (p : Quote → Bool) : List Quote → Option Nat
  | [] => none
  | q :: qs => if p q then some 0 else (jsFindIndex p qs).map (· + 1)

/-- The server branch of conflict resolution: find the first local quote
whose exact text equals the conflict's local text and overwrite it with a
copy of the server quote (JS `quotes[localIndex] = {...conflict.server}`);
when `findIndex` returns `-1` the store is left alone. -/
def applyServerChoice (qs : List Quote) (c : Conflict) : List Quote :=
  match jsFindIndex (fun q => q.text = c.localQuote.text) qs with
  | some i => qs.set i c.serverQuote
  | none => qs

/-- JS `resolveConflict(index, choice)`: returns immediately when the
index is not below the pending-queue length; otherwise applies the server
overwrite when the choice is the string `server` (any other choice keeps
the local version), then splices exactly that entry out of the queue. -/
def resolveConflict (s : AppState) (index : Nat) (choice : String) :
    AppState :=
  if h : index < s.pendingConflicts.length then
    { s with
      quotes :=
        if choice = "server" then
          applyServerChoice s.quotes (s.pendingConflicts.get ⟨index, h⟩)
        else s.quotes,
      pendingConflicts := s.pendingConflicts.eraseIdx index }
  else s

/-- JS `resolveAllConflicts(choice)`: when the choice is `server`, applies
the server overwrite for every pending conflict in queue order; any other
choice keeps all local data.  `closeConflictModal` then unconditionally
empties the pending queue. -/
def resolveAllConflicts (s : AppState) (choice : String) : AppState :=
  { s with
    quotes :=
      if choice = "server" then
        s.pendingConflicts.foldl applyServerChoice s.quotes
      else s.quotes,
    pendingConflicts := [] }

theorem jsFindIndex_some (p : Quote → Bool) :
    ∀ (qs : List Quote) (i : Nat), jsFindIndex p qs = some i →
      i < qs.length ∧ ∃ q, qs[i]? = some q ∧ p q = true := by
  intro qs
  induction qs with
  | nil => intro i h; simp [jsFindIndex] at h
  | cons q rest ih =>
    intro i h
    by_cases hp : p q = true
    · simp [jsFindIndex, hp] at h
      subst h
      exact ⟨Nat.succ_pos _, q, by simp, hp⟩
    · simp [jsFindIndex, hp] at h
      obtain ⟨j, hj, hji⟩ := h
      obtain ⟨hlt, q', hq', hp'⟩ := ih j hj
      subst hji
      exact ⟨Nat.succ_lt_succ hlt, q', by simpa using hq', hp'⟩

theorem jsFindIndex_set_invar (p : Quote → Bool) :
    ∀ (qs : List Quote) (j : Nat) (v : Quote),
      (∀ q, qs[j]? = some q → p q = false) → p v = false →
      jsFindIndex p (qs.set j v) = jsFindIndex p qs := by
  intro qs
  induction qs with
  | nil => intro j v _ _; simp
  | cons q rest ih =>
    intro j v hq hv
    cases j with
    | zero =>
      have hpq : p q = false := hq q (by simp)
      simp [jsFindIndex, hpq, hv]
    | succ j =>
      have hq' : ∀ q', rest[j]? = some q' → p q' = false := by
        intro q' h'
        exact hq q' (by simpa using h')
      simp [jsFindIndex, ih j v hq' hv]

theorem getElem?_set_self_of_lt (l : List Quote) (i : Nat) (v : Quote)
    (h : i < l.length) : (l.set i v)[i]? = some v := by
  rw [List.getElem?_set_self']
  simp [List.getElem?_eq_getElem h]

theorem foldl_applyServerChoice_frame :
    ∀ (cs : List Conflict) (qs : List Quote) (j : Nat) (v : Quote),
      qs[j]? = some v →
      (∀ c ∈ cs, v.text ≠ c.localQuote.text) →
      (cs.foldl applyServerChoice qs)[j]? = some v := by
  intro cs
  induction cs with
  | nil => intro qs j v hv _; simpa using hv
  | cons c rest ih =>
    intro qs j v hv hall
    rw [List.foldl_cons]
    have hstep : (applyServerChoice qs c)[j]? = some v := by
      unfold applyServerChoice
      cases hidx : jsFindIndex (fun q => q.text = c.localQuote.text) qs with
      | none => exact hv
      | some i =>
        obtain ⟨hlt, qi, hqi, hpi⟩ := jsFindIndex_some _ qs i hidx
        have hij : i ≠ j := by
          intro he; subst he
          rw [hv] at hqi
          cases hqi
          exact hall c (List.mem_cons_self c rest) (of_decide_eq_true hpi)
        rw [List.getElem?_set_ne hij]
        exact hv
    exact ih (applyServerChoice qs c) j v hstep
      (fun c' hc' => hall c' (List.mem_cons_of_mem c hc'))

theorem foldl_applyServerChoice_spec :
    ∀ (cs : List Conflict) (qs : List Quote),
      (∀ c ∈ cs,
        (jsFindIndex (fun q => q.text = c.localQuote.text) qs).isSome) →
      cs.Pairwise RConf →
      ∀ c ∈ cs, ∀ j,
        jsFindIndex (fun q => q.text = c.localQuote.text) qs = some j →
        (cs.foldl applyServerChoice qs)[j]? = some c.serverQuote := by
  intro cs
  induction cs with
  | nil => intro qs _ _ c hc; cases hc
  | cons c0 rest ih =>
    intro qs hfind hpair c hc j hj
    have hR := (List.pairwise_cons.mp hpair).1
    have hpr := (List.pairwise_cons.mp hpair).2
    rw [List.foldl_cons]
    rcases List.mem_cons.mp hc with rfl | hcr
    · have happ : applyServerChoice qs c = qs.set j c.serverQuote := by
        unfold applyServerChoice; rw [hj]
      obtain ⟨hlt, -⟩ := jsFindIndex_some _ qs j hj
      rw [happ]
      exact foldl_applyServerChoice_frame rest (qs.set j c.serverQuote) j
        c.serverQuote (getElem?_set_self_of_lt qs j c.serverQuote hlt)
        (fun c' hc' => (hR c' hc').2)
    · obtain ⟨j0, hj0⟩ :
          ∃ j0, jsFindIndex (fun q => q.text = c0.localQuote.text) qs =
            some j0 :=
        Option.isSome_iff_exists.mp (hfind c0 (List.mem_cons_self c0 rest))
      have happ : applyServerChoice qs c0 = qs.set j0 c0.serverQuote := by
        unfold applyServerChoice; rw [hj0]
      obtain ⟨hlt0, q0, hq0, hp0⟩ := jsFindIndex_some _ qs j0 hj0
      have hq0t : q0.text = c0.localQuote.text := of_decide_eq_true hp0
      have htrans : ∀ c' ∈ rest,
          jsFindIndex (fun q => q.text = c'.localQuote.text)
              (qs.set j0 c0.serverQuote) =
            jsFindIndex (fun q => q.text = c'.localQuote.text) qs := by
        intro c' hc'
        apply jsFindIndex_set_invar
        · intro q hq
          rw [hq0] at hq
          cases hq
          exact decide_eq_false (by rw [hq0t]; exact (hR c' hc').1)
        · exact decide_eq_false (hR c' hc').2
      rw [happ]
      apply ih (qs.set j0 c0.serverQuote)
      · intro c' hc'
        rw [htrans c' hc']
        exact hfind c' (List.mem_cons_of_mem c0 hc')
      · exact hpr
      · exact hcr
      · rw [htrans c hcr]; exact hj

/-- C3: `resolveAllConflicts("server")` unconditionally clears the
pending-conflict queue; and whenever every pending conflict's local text
occurs in the store and the pending conflicts do not interfere (pairwise
distinct local texts, and no earlier conflict's server text equal to a
later conflict's local text), the quote at the position of each
conflict's local match is overwritten with a copy of that conflict's
server quote — so each previously conflicting local slot now carries the
server's category. -/
theorem resolveAllConflicts_server_applies (s : AppState)
    (hfind : ∀ c ∈ s.pendingConflicts,
      (jsFindIndex (fun q => q.text = c.localQuote.text) s.quotes).isSome)
    (hsep : s.pendingConflicts.Pairwise RConf) :
    (resolveAllConflicts s ("server")).pendingConflicts = [] ∧
    ∀ c ∈ s.pendingConflicts, ∀ j,
      jsFindIndex (fun q => q.text = c.localQuote.text) s.quotes = some j →
      (resolveAllConflicts s ("server")).quotes[j]? = some c.serverQuote := by
  constructor
  · rfl
  · intro c hc j hj
    have hqs : (resolveAllConflicts s ("server")).quotes =
        s.pendingConflicts.foldl applyServerChoice s.quotes := by
      simp [resolveAllConflicts]
    rw [hqs]
    exact foldl_applyServerChoice_spec s.pendingConflicts s.quotes hfind hsep
      c hc j hj

/-- The conflict `detectConflicts qsW [postToQuote pConf]` produces. -/
def cW : Conflict :=
  { localQuote := { text := "Hello World", category := "Life" },
    serverQuote := { text := "  hello world ", category := "Server Wisdom",
                     id := some 2, source := some ("server") } }

/-- `sIdle` after a sync cycle has queued the conflict `cW`. -/
def sConf : AppState :=
  { quotes := qsW, selectedCategory := "all", isSyncing := false,
    lastSyncTime := none, serverQuotes := [], pendingConflicts := [cW] }

theorem resolveAllConflicts_server_applies_witness :
    (resolveAllConflicts sConf ("server")).pendingConflicts = [] ∧
    (resolveAllConflicts sConf ("server")).quotes[0]? = some cW.serverQuote :=
  ⟨(resolveAllConflicts_server_applies sConf (by decide)
      (List.pairwise_singleton RConf cW)).1,
   (resolveAllConflicts_server_applies sConf (by decide)
      (List.pairwise_singleton RConf cW)).2 cW (List.mem_singleton.mpr rfl)
      0 (by decide)⟩

/-- C6: `resolveConflict` is a no-op — state returned unchanged, store
and queue included — whenever the index is out of bounds of the pending
queue; for an in-bounds index it removes exactly that one entry from the
queue, whatever the choice, so the queue length strictly decreases and a
resolved conflict is never revisited. -/
theorem resolveConflict_queue (s : AppState) (index : Nat)
    (choice : String) :
    (s.pendingConflicts.length ≤ index → resolveConflict s index choice = s) ∧
    (index < s.pendingConflicts.length →
      (resolveConflict s index choice).pendingConflicts =
        s.pendingConflicts.eraseIdx index ∧
      (resolveConflict s index choice).pendingConflicts.length =
        s.pendingConflicts.length - 1) := by
  constructor
  · intro h
    have h' : ¬ index < s.pendingConflicts.length := Nat.not_lt.mpr h
    simp [resolveConflict, h']
  · intro h
    constructor
    · simp [resolveConflict, h]
    · simp [resolveConflict, h, List.length_eraseIdx]

theorem resolveConflict_queue_witness :
    resolveConflict sConf 5 ("local") = sConf ∧
    (resolveConflict sConf 0 ("server")).pendingConflicts =
      sConf.pendingConflicts.eraseIdx 0 :=
  ⟨(resolveConflict_queue sConf 5 ("local")).1 (by decide),
   ((resolveConflict_queue sConf 0 ("server")).2 (by decide)).1⟩

/-- C7: `resolveAllConflicts("local")` leaves zero pending conflicts and
the store exactly as it was; and composed with any sync cycle, every
quote that existed before the cycle computed its conflict set keeps its
pre-sync text and category (the cycle only appends after the existing
prefix, and the local bulk resolution touches nothing). -/
theorem resolveAllConflicts_local_frame (s : AppState) (fr : FetchOutcome)
    (mt : Bool) (now : Nat) :
    (resolveAllConflicts s ("local")).pendingConflicts = [] ∧
    (resolveAllConflicts s ("local")).quotes = s.quotes ∧
    (∀ i, i < s.quotes.length →
      (resolveAllConflicts (syncQuotes s fr mt now).1 ("local")).quotes[i]? =
        s.quotes[i]?) := by
  refine ⟨rfl, by simp [resolveAllConflicts], ?_⟩
  intro i hi
  have h1 : (resolveAllConflicts (syncQuotes s fr mt now).1 ("local")).quotes =
      (syncQuotes s fr mt now).1.quotes := by
    simp [resolveAllConflicts]
  rw [h1]
  exact syncQuotes_preserves_existing s fr mt now i hi

theorem resolveAllConflicts_local_frame_witness :
    (resolveAllConflicts
        (syncQuotes sConf (FetchOutcome.ok [pNew]) false 7).1
        ("local")).quotes[0]? = sConf.quotes[0]? :=
  (resolveAllConflicts_local_frame sConf (FetchOutcome.ok [pNew]) false
    7).2.2 0 (by decide)

/-- JS `String.prototype.trim`, over the character list so that it
evaluates inside the kernel. -/
def jsTrim (t : String) : String := String.mk (trimChars t.data)

/-- The built-in default quote set of the sync variant, restored by
`clearAllData`. -/
def defaultQuotes : List Quote :=
  [{ text := "The only way to do great work is to love what you do.",
     category := "Motivation" },
   { text := "Life is what happens when you're busy making other plans.",
     category := "Life" },
   { text := "The future belongs to those who believe in the beauty of their dreams.",
     category := "Inspiration" },
   { text := "It is during our darkest moments that we must focus to see the light.",
     category := "Motivation" },
   { text := "The only impossible journey is the one you never begin.",
     category := "Inspiration" },
   { text := "In the end, we will remember not the words of our enemies, but the silence of our friends.",
     category := "Wisdom" },
   { text := "Success is not final, failure is not fatal: it is the courage to continue that counts.",
     category := "Success" },
   { text := "Believe you can and you're halfway there.",
     category := "Motivation" },
   { text := "The greatest glory in living lies not in never falling, but in rising every time we fall.",
     category := "Perseverance" },
   { text := "Your time is limited, don't waste it living someone else's life.",
     category := "Life" }]

/-- JS `addQuote()` (sync variant): trims the two input fields, rejects
the add when either is empty, and otherwise pushes a quote tagged with a
local source. -/
def addQuote (s : AppState) (textInput categoryInput : String) : AppState :=
  if jsTrim textInput = "" ∨ jsTrim categoryInput = "" then s
  else
    { s with quotes := s.quotes ++
        [{ text := jsTrim textInput, category := jsTrim categoryInput,
           source := some ("local") }] }

/-- JS `clearAllData()`: after the user confirms, storage is cleared, the
store is reset to a copy of the default quotes and the filter returns to
`all`; without confirmation nothing happens. -/
def clearAllData (s : AppState) (confirmed : Bool) : AppState :=
  if confirmed then
    { s with quotes := defaultQuotes, selectedCategory := "all" }
  else s

/-- A parsed JSON value, as `JSON.parse` can produce it. -/
inductive JsonVal where
  | null
  | bool (b : Bool)
  | num (n : Int)
  | str (s : String)
  | arr (elems : List JsonVal)
  | obj (fields : List (String × JsonVal))

/-- Whether a JSON value is the null literal. -/
def JsonVal.isNull : JsonVal → Bool
  | .null => true
  | _ => false

/-- JS `Array.isArray`. -/
def JsonVal.isArr : JsonVal → Bool
  | .arr _ => true
  | _ => false

/-- Property lookup on a parsed JS object: with duplicate keys the last
binding wins. -/
def jsField (fields : List (String × JsonVal)) (key : String) :
    Option JsonVal :=
  (fields.reverse.find? (fun f => f.1 = key)).map (fun f => f.2)

/-- The import's filter predicate: an element passes exactly when its
`text` and `category` properties are truthy — for strings, non-empty —
and of type string; a passing element yields the quote to append. -/
def validQuoteOf : JsonVal → Option Quote
  | .obj fields =>
    match jsField fields ("text"), jsField fields ("category") with
    | some (.str t), some (.str c) =>
      if t ≠ "" ∧ c ≠ "" then some { text := t, category := c } else none
    | _, _ => none
  | _ => none

/-- The try block of the import's onload handler, after `JSON.parse`:
a non-array payload throws; a `null` element makes the filter callback
throw a TypeError (reading `.text` of null), rejecting the whole batch;
a batch with zero valid entries throws; otherwise the valid entries and
the count of skipped elements are produced. -/
def importPayload : JsonVal → Except String (List Quote × Nat)
  | .arr elems =>
    if elems.any JsonVal.isNull then
      .error "TypeError: cannot read properties of null"
    else
      if (elems.filterMap validQuoteOf).length = 0 then
        .error "No valid quotes found in the file."
      else
        .ok (elems.filterMap validQuoteOf,
             elems.length - (elems.filterMap validQuoteOf).length)
  | _ => .error "Invalid file format. Expected an array of quotes."

/-- JS `importFromJsonFile`'s effect on the store: on any thrown error
the catch block reports it and the store is untouched (skip count
reported as `none`); on success the valid quotes are appended in order
and the number of skipped elements is reported. -/
def importFromJsonFile (s : AppState) (payload : JsonVal) :
    AppState × Option Nat :=
  match importPayload payload with
  | .error _ => (s, none)
  | .ok (validQuotes, skipped) =>
    ({ s with quotes := s.quotes ++ validQuotes }, some skipped)

/-- The spec's import example payload:
`[{text:"A",category:"B"}, {text:""}, {foo:1}]`. -/
def c8Payload : JsonVal :=
  JsonVal.arr
    [JsonVal.obj [("text", JsonVal.str ("A")), ("category", JsonVal.str ("B"))],
     JsonVal.obj [("text", JsonVal.str (""))],
     JsonVal.obj [("foo", JsonVal.num 1)]]

/-- The elements of a payload pairing a `null` with one valid quote. -/
def c8NullElems : List JsonVal :=
  [JsonVal.null,
   JsonVal.obj [("text", JsonVal.str ("A")), ("category", JsonVal.str ("B"))]]

/-- C8 counterexample: on the array payload `[null, {text:"A",category:"B"}]`
the filter callback throws a TypeError reading `.text` of `null`, so the
catch block rejects the whole batch and the store is unchanged — although
the payload is an array holding one valid entry.  This contradicts the
claim that valid elements are always appended and that the batch is
rejected only for a non-array payload or zero valid entries. -/
theorem importFromJsonFile_null_rejects :
    (JsonVal.arr c8NullElems).isArr = true ∧
    (c8NullElems.filterMap validQuoteOf).length = 1 ∧
    importFromJsonFile sIdle (JsonVal.arr c8NullElems) = (sIdle, none) :=
  ⟨rfl, rfl, rfl⟩

/-- C8 (amended): the import accepts only array payloads; from an array
containing no `null` element it appends, in order, exactly the elements
with non-empty string `text` and `category`, reporting the count of
skipped elements; the spec's example appends one quote and reports 2
skipped; a non-array payload or a batch with zero valid entries rejects
the whole import with the store unchanged.  (A `null` element anywhere
in the array likewise rejects the whole batch, even when valid entries
exist: see the counterexample.) -/
theorem importFromJsonFile_spec :
    (∀ s : AppState,
      importFromJsonFile s c8Payload =
        ({ s with quotes := s.quotes ++ [{ text := "A", category := "B" }] },
         some 2)) ∧
    (∀ (s : AppState) (v : JsonVal), v.isArr = false →
      importFromJsonFile s v = (s, none)) ∧
    (∀ (s : AppState) (xs : List JsonVal),
      (xs.filterMap validQuoteOf).length = 0 →
      importFromJsonFile s (JsonVal.arr xs) = (s, none)) ∧
    (∀ (s : AppState) (xs : List JsonVal),
      xs.any JsonVal.isNull = false →
      0 < (xs.filterMap validQuoteOf).length →
      importFromJsonFile s (JsonVal.arr xs) =
        ({ s with quotes := s.quotes ++ xs.filterMap validQuoteOf },
         some (xs.length - (xs.filterMap validQuoteOf).length))) := by
  refine ⟨?_, ?_, ?_, ?_⟩
  · intro s; rfl
  · intro s v hv
    cases v with
    | arr elems => simp [JsonVal.isArr] at hv
    | null => rfl
    | bool b => rfl
    | num n => rfl
    | str t => rfl
    | obj fields => rfl
  · intro s xs h
    by_cases hnull : xs.any JsonVal.isNull = true
    · simp [importFromJsonFile, importPayload, hnull]
    · have hnull' : xs.any JsonVal.isNull = false := by simpa using hnull
      simp [importFromJsonFile, importPayload, hnull', h]
  · intro s xs hnull hpos
    have h0 : ¬ (xs.filterMap validQuoteOf).length = 0 := by omega
    simp [importFromJsonFile, importPayload, hnull, h0]

theorem importFromJsonFile_spec_witness :
    importFromJsonFile sIdle c8Payload =
      ({ sIdle with
          quotes := sIdle.quotes ++ [{ text := "A", category := "B" }] },
       some 2) ∧
    importFromJsonFile sIdle (JsonVal.num 3) = (sIdle, none) ∧
    importFromJsonFile sIdle (JsonVal.arr []) = (sIdle, none) :=
  ⟨importFromJsonFile_spec.1 sIdle,
   importFromJsonFile_spec.2.1 sIdle (JsonVal.num 3) rfl,
   importFromJsonFile_spec.2.2.1 sIdle [] rfl⟩

theorem applyServerChoice_length (qs : List Quote) (c : Conflict) :
    (applyServerChoice qs c).length = qs.length := by
  unfold applyServerChoice
  cases h : jsFindIndex (fun q => q.text = c.localQuote.text) qs with
  | none => rfl
  | some i => simp

theorem foldl_applyServerChoice_length :
    ∀ (cs : List Conflict) (qs : List Quote),
      (cs.foldl applyServerChoice qs).length = qs.length := by
  intro cs
  induction cs with
  | nil => intro qs; rfl
  | cons c rest ih =>
    intro qs
    rw [List.foldl_cons, ih, applyServerChoice_length]

/-- A store one quote longer than the default set. -/
def sBig : AppState :=
  { quotes := defaultQuotes ++ [{ text := "Extra quote", category := "Misc" }],
    selectedCategory := "all", isSyncing := false, lastSyncTime := none,
    serverQuotes := [], pendingConflicts := [] }

/-- C9 counterexample: `clearAllData` mutates the Quote Store and shrinks
it — a confirmed reset of an 11-quote store leaves the 10 default quotes,
so the store is not merely append-only: a wholesale reset/delete
operation does exist in the code. -/
theorem clearAllData_shrinks_store :
    (clearAllData sBig true).quotes.length < sBig.quotes.length ∧
    (clearAllData sBig true).quotes ≠ sBig.quotes := by
  constructor
  · decide
  · decide

/-- C9 (amended): each of the five listed mutators — `addQuote`,
`importFromJsonFile`, the `syncQuotes` merge, `resolveConflict` and
`resolveAllConflicts` — leaves the Quote Store's length no smaller than
before; conflict resolution overwrites a quote in place rather than
deleting.  (`clearAllData`, not among them, can shrink the store: see the
counterexample.) -/
theorem store_mutators_never_shrink :
    (∀ (s : AppState) (t c : String),
      s.quotes.length ≤ (addQuote s t c).quotes.length) ∧
    (∀ (s : AppState) (v : JsonVal),
      s.quotes.length ≤ (importFromJsonFile s v).1.quotes.length) ∧
    (∀ (s : AppState) (fr : FetchOutcome) (mt : Bool) (now : Nat),
      s.quotes.length ≤ (syncQuotes s fr mt now).1.quotes.length) ∧
    (∀ (s : AppState) (i : Nat) (ch : String),
      s.quotes.length ≤ (resolveConflict s i ch).quotes.length) ∧
    (∀ (s : AppState) (ch : String),
      s.quotes.length ≤ (resolveAllConflicts s ch).quotes.length) := by
  refine ⟨?_, ?_, ?_, ?_, ?_⟩
  · intro s t c
    unfold addQuote
    split
    · exact le_rfl
    · simp
  · intro s v
    unfold importFromJsonFile
    cases h : importPayload v with
    | error e => simp
    | ok p =>
      obtain ⟨vq, k⟩ := p
      simp
  · intro s fr mt now
    rcases syncQuotes_quotes_cases s fr mt now with h | h
    · rw [h]
    · rw [h]; simp
  · intro s i ch
    unfold resolveConflict
    split
    · split
      · simp [applyServerChoice_length]
      · simp
    · exact le_rfl
  · intro s ch
    unfold resolveAllConflicts
    split
    · simp [foldl_applyServerChoice_length]
    · simp

end QuoteApp
